import Mathlib

/-!
Shallow embedding of the `dynerr` crate (src/lib.rs): a crash logger
(`log`, `clean_log`, `logged_panic`, `check`) over an explicit file-system
state, and the dynamic error dispatcher (`dynerr`, `dynmatch`) over a
type-erased error carrier. I/O failures are modelled by an oracle
(`IOEnv`); a Rust panic is modelled as an `Except.error` carrying the
panic message, paired with the file system as it stands at the abort.
-/

namespace Dynerr

/-- The file system: an association list from file names to text contents.
A name present in the list is an existing file. -/
def FS : Type := List (String × String)

/-- Read a file's content, `none` if the file does not exist. -/
def fsRead : FS → String → Option String
  | [], _ => none
  | (n, c) :: rest, f => if n = f then some c else fsRead rest f

/-- Content of a file, the empty string for a missing file. -/
def readLog (fs : FS) (f : String) : String := (fsRead fs f).getD ""

/-- Does the file exist (`Path::new(log_file).exists()`)? -/
def fsExists (fs : FS) (f : String) : Bool := (fsRead fs f).isSome

/-- Effect of `OpenOptions::new().append(true).create(true)`: create the
file empty when absent, leave it alone when present. -/
def fsTouch (fs : FS) (f : String) : FS :=
  if fsExists fs f then fs else (f, "") :: fs

/-- Append `s` to the (first) entry named `f`. -/
def fsAppend : FS → String → String → FS
  | [], _, _ => []
  | (n, c) :: rest, f, s =>
    if n = f then (n, c ++ s) :: rest else (n, c) :: fsAppend rest f s

/-- Effect of `remove_file`. -/
def fsRemove : FS → String → FS
  | [], _ => []
  | (n, c) :: rest, f =>
    if n = f then fsRemove rest f else (n, c) :: fsRemove rest f

/-- Oracle deciding whether the two I/O operations inside `log` fail,
and with which OS error description. -/
structure IOEnv where
  openFail : Option String
  writeFail : Option String

/-- The run in which neither opening nor writing the log fails. -/
def envOk : IOEnv := ⟨none, none⟩

/-- Model of `pub fn log<T: fmt::Display>(event: T, log_file: &str) -> T` from
src/lib.rs. `disp` plays the role of the `Display` instance. The result
pairs the file system after the call with either the returned event or
the panic message of the abort. -/
def log {T : Type} (disp : T → String) (event : T) (log_file : String)
    (env : IOEnv) (fs : FS) : FS × Except String T :=
  match env.openFail with
  | some e =>
    (fs, Except.error ("Dynerr: Error opening log during crash: " ++ e ++
      " (error passed to logger was: " ++ disp event ++ ")"))
  | none =>
    let fs1 := fsTouch fs log_file
    match env.writeFail with
    | some e =>
      (fs1, Except.error ("Dynerr: Error appending to log during crash: " ++ e ++
        " (error passed to logger was: " ++ disp event ++ ")"))
    | none => (fsAppend fs1 log_file (disp event ++ "\n"), Except.ok event)

/-- Model of `pub fn clean_log(log_file: &str)` from src/lib.rs: delete the file
when it exists, do nothing otherwise; `rmFail` is the oracle for the
`remove_file` call. -/
def clean_log (log_file : String) (rmFail : Option String) (fs : FS) :
    FS × Except String Unit :=
  if fsExists fs log_file then
    match rmFail with
    | some e => (fs, Except.error ("Dynerr: Error cleaning file: " ++ e))
    | none => (fsRemove fs log_file, Except.ok ())
  else (fs, Except.ok ())

/-- The `logged_panic!` construct: log the event, then abort with the
logged event's display text as the message; if `log` itself aborts, its
own message is the one that escapes. Always aborts, hence the plain
`String` in the result. -/
def logged_panic {T : Type} (disp : T → String) (event : T) (f : String)
    (env : IOEnv) (fs : FS) : FS × String :=
  match log disp event f env fs with
  | (fs1, Except.ok t) => (fs1, disp t)
  | (fs1, Except.error m) => (fs1, m)

/-- The `check!` construct: `$x.unwrap_or_else(|e| logged_panic!(e, $log))`. -/
def check {E A : Type} (disp : E → String) (x : Except E A) (f : String)
    (env : IOEnv) (fs : FS) : FS × Except String A :=
  match x with
  | Except.ok v => (fs, Except.ok v)
  | Except.error e =>
    let p := logged_panic disp e f env fs
    (p.1, Except.error p.2)

/-- The type-erased error carrier `Box<dyn Error>`: a concrete type,
identified at runtime by a numeric type token drawn from a family `F`,
together with a value of that type. -/
def DynError (F : Nat → Type) : Type := Σ i : Nat, F i

/-- Wrapping: `Box::new(v)` coerced to `Box<dyn Error>`: erase the static type of
`v`, keeping its runtime type token. -/
def wrap {F : Nat → Type} (i : Nat) (v : F i) : DynError F := ⟨i, v⟩

/-- Model of `e.downcast_ref::<T>()`: recover the concrete value when the erased
value's runtime type is `T`, `none` otherwise. -/
def downcast_ref {F : Nat → Type} (i : Nat) (e : DynError F) : Option (F i) :=
  if h : e.1 = i then some (h ▸ e.2) else none

/-- One `type T { arm ... , _ => any }` group of `dynmatch!`: the declared
type's token, the arms (a pattern-with-guard is a boolean test on the
recovered value, paired with the arm's expression), and the group's own
`_ => any` fallback expression. -/
structure Group (F : Nat → Type) (R : Type) where
  tyId : Nat
  arms : List ((F tyId → Bool) × (F tyId → R))
  fallback : R

/-- The inner `match` of an expanded `dynmatch!` group: try the arms top
to bottom on the recovered value, falling through to the group's
`_ => any` expression. -/
def matchArms {A R : Type} (v : A) : List ((A → Bool) × (A → R)) → R → R
  | [], fb => fb
  | (p, f) :: rest, fb => if p v then f v else matchArms v rest fb

/-- The `dynmatch!` construct from src/lib.rs: an `if let
Some(e) = $e.downcast_ref::<$ty>() { match e { ... } } else` chain over
the groups, ending in the `_ => $end` catch-all block. -/
def dynmatch {F : Nat → Type} {R : Type} (e : DynError F) :
    List (Group F R) → R → R
  | [], endE => endE
  | g :: rest, endE =>
    match downcast_ref g.tyId e with
    | some v => matchArms v g.arms g.fallback
    | none => dynmatch e rest endE

/-- The `dynerr!` construct: `return Err(Box::new($e))`. In the `Except`
monad modelling a function body returning `DynResult<T>`, it is the
computation that stops with the freshly wrapped error. -/
def dynerr {F : Nat → Type} {T : Type} (i : Nat) (v : F i) :
    Except (DynError F) T :=
  Except.error (wrap i v)

/-- A sample domain error type, used to instantiate the dispatcher at the
spec's `InvalidInput(code=4)` example. -/
structure InvalidInput where
  code : Nat

/-- A sample type family assigning the token `0` to `InvalidInput`. -/
def ExF : Nat → Type
  | 0 => InvalidInput
  | _ => Unit

/-! ### Helper lemmas about the file-system model -/

theorem fsRead_fsTouch_self (fs : FS) (f : String) :
    fsRead (fsTouch fs f) f = some (readLog fs f) := by
  cases h : fsRead fs f with
  | none => simp [fsTouch, fsExists, readLog, h, fsRead]
  | some c => simp [fsTouch, fsExists, readLog, h]

theorem fsRead_fsAppend_self (fs : FS) (f s : String) :
    fsRead (fsAppend fs f s) f = (fsRead fs f).map (fun c => c ++ s) := by
  induction fs with
  | nil => simp [fsAppend, fsRead]
  | cons p rest ih =>
    obtain ⟨n, c⟩ := p
    by_cases h : n = f
    · simp [fsAppend, fsRead, h]
    · simp [fsAppend, fsRead, h, ih]

theorem log_envOk_eq {T : Type} (disp : T → String) (ev : T) (f : String) (fs : FS) :
    log disp ev f envOk fs =
      (fsAppend (fsTouch fs f) f (disp ev ++ "\n"), Except.ok ev) := rfl

theorem readLog_log_envOk {T : Type} (disp : T → String) (ev : T) (f : String) (fs : FS) :
    readLog ((log disp ev f envOk fs).1) f = readLog fs f ++ disp ev ++ "\n" := by
  show readLog (fsAppend (fsTouch fs f) f (disp ev ++ "\n")) f = _
  unfold readLog
  rw [fsRead_fsAppend_self, fsRead_fsTouch_self]
  simp [readLog, String.append_assoc]

theorem fsRead_fsRemove_self (fs : FS) (f : String) :
    fsRead (fsRemove fs f) f = none := by
  induction fs with
  | nil => simp [fsRemove, fsRead]
  | cons p rest ih =>
    obtain ⟨n, c⟩ := p
    by_cases h : n = f
    · simp [fsRemove, h, ih]
    · simp [fsRemove, fsRead, h, ih]

theorem fsRead_fsRemove_ne (fs : FS) (f g : String) (h : g ≠ f) :
    fsRead (fsRemove fs f) g = fsRead fs g := by
  induction fs with
  | nil => simp [fsRemove]
  | cons p rest ih =>
    obtain ⟨n, c⟩ := p
    by_cases hn : n = f
    · subst hn
      have hng : n ≠ g := fun hh => h hh.symm
      simp [fsRemove, fsRead, hng, ih]
    · simp [fsRemove, fsRead, hn, ih]

theorem fsRead_clean_self (fs : FS) (f : String) :
    fsRead ((clean_log f none fs).1) f = none := by
  by_cases h : fsExists fs f
  · simp [clean_log, h, fsRead_fsRemove_self]
  · have : fsRead fs f = none := by
      cases hr : fsRead fs f with
      | none => rfl
      | some c => simp [fsExists, hr] at h
    simp [clean_log, h, this]

theorem downcast_ref_wrap {F : Nat → Type} (i : Nat) (v : F i) :
    downcast_ref i (wrap i v) = some v := by
  simp [downcast_ref, wrap]

theorem downcast_ref_ne {F : Nat → Type} (i : Nat) (e : DynError F)
    (h : e.1 ≠ i) : downcast_ref i e = none := by
  simp [downcast_ref, h]

/-! ### Claim theorems -/

/-- C1 (counterexample): deleting the log file and then calling `log` once
does NOT leave a creation-sentinel line before the event's line: with the
file `"f"` deleted and the event `"x"` logged, the file content is exactly
`"x\n"`, and the text `"file created"` occurs nowhere in it. -/
theorem log_no_creation_sentinel :
    readLog ((log (fun s => s) "x" "f" envOk
      ((clean_log "f" none [("f", "old")]).1)).1) "f" = "x\n" ∧
    ¬ (("file created").data <:+:
      (readLog ((log (fun s => s) "x" "f" envOk
        ((clean_log "f" none [("f", "old")]).1)).1) "f").data) := by
  constructor
  · decide
  · decide

/-- C1 (amended): if the log file does not exist when `log(event, file)` is
called, the call creates the file and appends the event's line only — no
sentinel entry is written; deleting the log file and then calling `log`
once yields a file containing exactly the event's line. -/
theorem log_after_clean_single_entry {T : Type} (disp : T → String)
    (ev : T) (f : String) (fs : FS) :
    readLog ((log disp ev f envOk ((clean_log f none fs).1)).1) f
      = disp ev ++ "\n" := by
  rw [readLog_log_envOk]
  unfold readLog
  rw [fsRead_clean_self]
  apply String.ext
  simp

/-- C4: `check` (`unwrapOrAbort`) on `Success v` returns `v` and leaves the
file system untouched; on `Failure e` it behaves exactly as `logged_panic`
applied to `e`: in a failure-free run it appends `e`'s display text plus a
newline to the log file and aborts with `e`'s display text as the message. -/
theorem check_spec {E A : Type} (disp : E → String) (v : A) (e : E)
    (f : String) (env : IOEnv) (fs : FS) :
    check disp (Except.ok v) f env fs = (fs, Except.ok v) ∧
    check disp (Except.error e : Except E A) f env fs =
      ((logged_panic disp e f env fs).1,
        Except.error (logged_panic disp e f env fs).2) ∧
    readLog (check disp (Except.error e : Except E A) f envOk fs).1 f
      = readLog fs f ++ disp e ++ "\n" ∧
    (check disp (Except.error e : Except E A) f envOk fs).2 = Except.error (disp e) := by
  refine ⟨rfl, rfl, ?_, rfl⟩
  exact readLog_log_envOk disp e f fs

/-- C5: whenever opening or appending fails inside `log(event, file)`, the
call aborts (returns the panic outcome, never the event) and the panic
message contains both the I/O failure's description `e` and the display
text of the original event. -/
theorem log_io_failure_diagnostic {T : Type} (disp : T → String) (ev : T)
    (f : String) (env : IOEnv) (fs : FS) (e : String)
    (h : env.openFail = some e ∨
      (env.openFail = none ∧ env.writeFail = some e)) :
    ∃ m a b, (log disp ev f env fs).2 = Except.error m ∧
      m = a ++ e ++ b ++ disp ev ++ ")" := by
  rcases h with h | ⟨h1, h2⟩
  · exact ⟨_, "Dynerr: Error opening log during crash: ",
      " (error passed to logger was: ", by simp [log, h], rfl⟩
  · exact ⟨_, "Dynerr: Error appending to log during crash: ",
      " (error passed to logger was: ", by simp [log, h1, h2], rfl⟩

/-- C5 witness: a run whose open fails with description `"boom"` while
logging the event `"x"` aborts with a message carrying both strings. -/
theorem log_io_failure_diagnostic_witness :
    ∃ m a b, (log (fun s => s) "x" "f" ⟨some "boom", none⟩ []).2
        = Except.error m ∧
      m = a ++ "boom" ++ b ++ "x" ++ ")" :=
  log_io_failure_diagnostic (fun s => s) "x" "f" ⟨some "boom", none⟩ []
    "boom" (Or.inl rfl)

/-- C6: a successful `log` call extends the file's content with exactly the
event's line, keeping the previous content as a prefix; two successive
calls append the two lines in call order. -/
theorem log_appends_in_order {T : Type} (disp : T → String) (e1 e2 : T)
    (f : String) (fs : FS) :
    readLog ((log disp e1 f envOk fs).1) f
      = readLog fs f ++ disp e1 ++ "\n" ∧
    readLog ((log disp e2 f envOk ((log disp e1 f envOk fs).1)).1) f
      = readLog fs f ++ disp e1 ++ "\n" ++ disp e2 ++ "\n" := by
  refine ⟨readLog_log_envOk disp e1 f fs, ?_⟩
  rw [readLog_log_envOk, readLog_log_envOk]

/-- C7: when `log(event, file)` returns (rather than aborting), the value
it returns is the event argument itself. -/
theorem log_identity_return {T : Type} (disp : T → String) (ev : T)
    (f : String) (env : IOEnv) (fs : FS) (t : T)
    (h : (log disp ev f env fs).2 = Except.ok t) : t = ev := by
  rcases env with ⟨op, wr⟩
  cases op with
  | some e => simp [log] at h
  | none =>
    cases wr with
    | some e => simp [log] at h
    | none =>
      simp [log] at h
      exact h.symm

/-- C7 witness: logging `"x"` in a failure-free run returns `"x"` itself. -/
theorem log_identity_return_witness : ("x" : String) = "x" :=
  log_identity_return (fun s => s) "x" "f" envOk [] "x" rfl

/-- C8: `clean_log` deletes the named file when it exists (and touches no
other file), returns normally with no file-system change when it does not
exist, and aborts when deleting an existing file fails. -/
theorem clean_log_spec (f : String) (fs : FS) :
    (fsExists fs f = false → clean_log f none fs = (fs, Except.ok ())) ∧
    (fsExists fs f = true →
      clean_log f none fs = (fsRemove fs f, Except.ok ()) ∧
      fsRead (fsRemove fs f) f = none ∧
      ∀ g, g ≠ f → fsRead (fsRemove fs f) g = fsRead fs g) ∧
    (fsExists fs f = true → ∀ e, ∃ m,
      clean_log f (some e) fs = (fs, Except.error m)) := by
  refine ⟨fun h => ?_, fun h => ?_, fun h e => ?_⟩
  · simp [clean_log, h]
  · exact ⟨by simp [clean_log, h], fsRead_fsRemove_self fs f,
      fun g hg => fsRead_fsRemove_ne fs f g hg⟩
  · exact ⟨"Dynerr: Error cleaning file: " ++ e, by simp [clean_log, h]⟩

/-- C8 witness: on the file system `[("a", "c")]`, cleaning the missing
file `"b"` is a no-op, cleaning `"a"` removes it, and a failing removal of
`"a"` aborts. -/
theorem clean_log_spec_witness :
    clean_log "b" none [("a", "c")] = ([("a", "c")], Except.ok ()) ∧
    clean_log "a" none [("a", "c")]
      = (fsRemove [("a", "c")] "a", Except.ok ()) ∧
    (∃ m, clean_log "a" (some "boom") [("a", "c")]
      = ([("a", "c")], Except.error m)) :=
  ⟨(clean_log_spec "b" [("a", "c")]).1 (by decide),
   ((clean_log_spec "a" [("a", "c")]).2.1 (by decide)).1,
   (clean_log_spec "a" [("a", "c")]).2.2 (by decide) "boom"⟩

/-- C2: `dynmatch` tests the groups' declared types in declaration order:
the first group whose type matches the erased value has its arms tried top
to bottom with the first matching arm's expression as the result, a group
whose arms all fail yields that group's own fallback, later groups are
skipped either way, and only when no group's type matches is the final
catch-all evaluated; being a total function, exactly one of these
expressions is the result. -/
theorem dynmatch_dispatch_order {F : Nat → Type} {R : Type}
    (e : DynError F) (endE : R) :
    (∀ (gs1 gs2 : List (Group F R)) (g : Group F R) (v : F g.tyId),
      (∀ g' ∈ gs1, g'.tyId ≠ e.1) → downcast_ref g.tyId e = some v →
      dynmatch e (gs1 ++ g :: gs2) endE = matchArms v g.arms g.fallback) ∧
    (∀ gs : List (Group F R), (∀ g' ∈ gs, g'.tyId ≠ e.1) →
      dynmatch e gs endE = endE) ∧
    (∀ (A : Type) (v : A) (as1 as2 : List ((A → Bool) × (A → R)))
      (p : A → Bool) (fe : A → R) (fb : R),
      (∀ a ∈ as1, a.1 v = false) → p v = true →
      matchArms v (as1 ++ (p, fe) :: as2) fb = fe v) ∧
    (∀ (A : Type) (v : A) (arms : List ((A → Bool) × (A → R))) (fb : R),
      (∀ a ∈ arms, a.1 v = false) → matchArms v arms fb = fb) := by
  refine ⟨?_, ?_, ?_, ?_⟩
  · intro gs1 gs2 g v hskip hv
    induction gs1 with
    | nil => simp [dynmatch, hv]
    | cons g1 rest ih =>
      have h1 : g1.tyId ≠ e.1 := hskip g1 (List.mem_cons_self g1 rest)
      have : downcast_ref g1.tyId e = none :=
        downcast_ref_ne g1.tyId e (fun hh => h1 hh.symm)
      simp only [List.cons_append, dynmatch, this]
      exact ih (fun g' hg' => hskip g' (List.mem_cons_of_mem g1 hg'))
  · intro gs hall
    induction gs with
    | nil => rfl
    | cons g1 rest ih =>
      have h1 : g1.tyId ≠ e.1 := hall g1 (List.mem_cons_self g1 rest)
      have : downcast_ref g1.tyId e = none :=
        downcast_ref_ne g1.tyId e (fun hh => h1 hh.symm)
      simp only [dynmatch, this]
      exact ih (fun g' hg' => hall g' (List.mem_cons_of_mem g1 hg'))
  · intro A v as1 as2 p fe fb hall hp
    induction as1 with
    | nil => simp [matchArms, hp]
    | cons a rest ih =>
      obtain ⟨ap, af⟩ := a
      have ha : ap v = false := hall (ap, af) (List.mem_cons_self _ rest)
      simp only [List.cons_append, matchArms, ha, Bool.false_eq_true,
        if_false]
      exact ih (fun a' ha' => hall a' (List.mem_cons_of_mem _ ha'))
  · intro A v arms fb hall
    induction arms with
    | nil => rfl
    | cons a rest ih =>
      obtain ⟨ap, af⟩ := a
      have ha : ap v = false := hall (ap, af) (List.mem_cons_self _ rest)
      simp only [matchArms, ha, Bool.false_eq_true, if_false]
      exact ih (fun a' ha' => hall a' (List.mem_cons_of_mem _ ha'))

/-- C2 witness: an erased value of type token `1` skips a first group
declared for token `0` and is handled by the arms of the second group,
declared for token `1`. -/
theorem dynmatch_dispatch_order_witness :
    dynmatch (⟨1, (5 : Nat)⟩ : DynError (fun _ => Nat))
      ([⟨0, [], 99⟩] ++ ⟨1, [(fun n => n == 5, fun n => n + 1)], 42⟩ :: [])
      (7 : Nat)
      = matchArms (5 : Nat) [(fun n => n == 5, fun n => n + 1)] 42 :=
  (dynmatch_dispatch_order (⟨1, (5 : Nat)⟩ : DynError (fun _ => Nat)) 7).1
    [⟨0, [], 99⟩] [] ⟨1, [(fun n => n == 5, fun n => n + 1)], 42⟩ 5
    (by intro g' hg'
        rw [List.mem_singleton] at hg'
        subst hg'
        decide)
    rfl

/-- C3: wrapping a concrete value `v` of declared type token `i` into the
erased carrier and downcasting at `i` recovers `v` itself (hence a value
matching exactly the patterns `v` matches), and dispatching the wrapped
value against a group declared for `i` runs that group's arms on `v`; in
particular wrapping `InvalidInput` with code 4 and dispatching with an arm
testing `code == 4` executes that arm's expression, not the catch-all. -/
theorem wrap_dispatch_roundtrip {F : Nat → Type} {R : Type} (i : Nat)
    (v : F i) (arms : List ((F i → Bool) × (F i → R))) (fb : R)
    (gs : List (Group F R)) (endE : R) :
    downcast_ref i (wrap i v) = some v ∧
    dynmatch (wrap i v) (Group.mk i arms fb :: gs) endE
      = matchArms v arms fb ∧
    dynmatch (@wrap ExF 0 (InvalidInput.mk 4))
      [@Group.mk ExF Nat 0
        [(fun x : InvalidInput => x.code == 4, fun _ => 1)] 2] 0 = 1 := by
  refine ⟨downcast_ref_wrap i v, ?_, rfl⟩
  simp [dynmatch, downcast_ref_wrap]

/-- C9: `dynerr` is an early return: sequencing any continuation `k`
(the code following the construct in the enclosing function) after it
yields the failure with the freshly wrapped error, and the outcome is the
same for every continuation — the following code is never executed. -/
theorem dynerr_early_return {F : Nat → Type} {T S : Type} (i : Nat)
    (v : F i) (k k' : T → Except (DynError F) S) :
    ((dynerr i v : Except (DynError F) T) >>= k)
      = Except.error (wrap i v) ∧
    ((dynerr i v : Except (DynError F) T) >>= k)
      = ((dynerr i v : Except (DynError F) T) >>= k') :=
  ⟨rfl, rfl⟩

/-- C10: `log` appends exactly the event's display text followed by one
newline, with no escaping; an event whose display text contains a newline
therefore produces an entry spanning several lines, as the two newline
characters written by the single call logging `"a\nb"` show. -/
theorem log_appends_raw_text {T : Type} (disp : T → String) (ev : T)
    (f : String) :
    (∀ fs : FS, readLog ((log disp ev f envOk fs).1) f
      = readLog fs f ++ disp ev ++ "\n") ∧
    readLog ((log (fun s => s) "a\nb" "g" envOk []).1) "g" = "a\nb\n" ∧
    (readLog ((log (fun s => s) "a\nb" "g" envOk []).1) "g").data.count '\n'
      = 2 := by
  refine ⟨fun fs => readLog_log_envOk disp ev f fs, by decide, by decide⟩

end Dynerr
